import Mathlib

/-!
Verification of the droidrun-portal accessibility-tree utilities
(`scripts/droidutils.py`, `scripts/droid-wait.py`).

The Python code is embedded shallowly:

* Python dict nodes become the `NodeData` structure together with the
  mutually inductive `Node`/`Forest` tree (the mutual shape keeps every
  tree recursion structural, hence kernel-reducible).
* A `dict.get(key)` returning `None` becomes an `Option` field.
* Python exceptions raised while parsing bounds strings become
  `Except ParseError`.
* Python `//` (floor division) on ints matches Lean `Int` `/` for the
  positive divisor 2 used throughout, since `Int` division is Euclidean.
* Python float arithmetic in the visibility ratio is modelled over `ℚ`
  (the values compared here are exact in both systems).
* String helpers (`split`, `strip`, `lower`, `in`, `startswith`) are
  modelled by explicit `List Char` functions so that everything reduces
  in the kernel.
-/

/-- Exceptions that the Python bounds parsing can raise:
`int()` on a non-numeric field raises `ValueError`, and `parts[3]` on a
short list raises `IndexError`. -/
inductive ParseError where
  | valueError
  | indexError
deriving DecidableEq

/-- Numeric value of a digit list, most significant first. -/
def digitsVal (cs : List Char) : Nat :=
  cs.foldl (fun a c => a * 10 + (c.toNat - 48)) 0

/-- Continuation of a Python integer literal after its leading digit:
digits in which a single underscore may occur, only strictly between
two digits (PEP 515 grouping). -/
def pyDigitsTail : List Char → Bool
  | [] => true
  | '_' :: rest =>
    match rest with
    | c :: rest2 => c.isDigit && pyDigitsTail rest2
    | [] => false
  | c :: rest => c.isDigit && pyDigitsTail rest

/-- True when the list is a nonempty run of decimal digits with
PEP 515 underscore grouping: it starts and ends with a digit and every
underscore sits between two digits. -/
def pyDigitsOk : List Char → Bool
  | [] => false
  | c :: rest => c.isDigit && pyDigitsTail rest

/-- Model of Python `int(s)` on an already-stripped string: an optional
sign followed by a nonempty underscore-grouped run of decimal digits
(PEP 515); anything else raises `ValueError` (modelled as `none`).
Non-ASCII decimal digits, which the builtin also accepts, are outside
this executable instance; the C7 theorem's failure clause is proved for
every field parser, so nothing depends on that gap. -/
def pyInt? (cs : List Char) : Option Int :=
  match cs with
  | '-' :: rest =>
    if pyDigitsOk rest then some (-(digitsVal (rest.filter (· != '_')) : Int)) else none
  | '+' :: rest =>
    if pyDigitsOk rest then some ((digitsVal (rest.filter (· != '_')) : Nat) : Int) else none
  | _ =>
    if pyDigitsOk cs then some ((digitsVal (cs.filter (· != '_')) : Nat) : Int) else none

/-- Model of Python `s.split(",")`: splits at every comma, keeping empty
fields, and returns `[""]` for the empty string. -/
def splitComma : List Char → List (List Char)
  | [] => [[]]
  | c :: rest =>
    if c = ',' then [] :: splitComma rest
    else
      match splitComma rest with
      | [] => [[c]]
      | f :: fs => (c :: f) :: fs

/-- The exact character set of Python `str.isspace()` (and hence of
`str.strip()` with no argument): the Unicode whitespace code points
U+0009..U+000D, U+001C..U+001F, U+0020, U+0085, U+00A0, U+1680,
U+2000..U+200A, U+2028, U+2029, U+202F, U+205F and U+3000. -/
def pyIsSpace (c : Char) : Bool :=
  let n := c.toNat
  (0x09 ≤ n && n ≤ 0x0D) || (0x1C ≤ n && n ≤ 0x1F) || n == 0x20 || n == 0x85
    || n == 0xA0 || n == 0x1680 || (0x2000 ≤ n && n ≤ 0x200A) || n == 0x2028
    || n == 0x2029 || n == 0x202F || n == 0x205F || n == 0x3000

/-- Model of Python `s.strip()`: drop Unicode whitespace from both
ends. -/
def pyStrip (cs : List Char) : List Char :=
  ((cs.dropWhile pyIsSpace).reverse.dropWhile pyIsSpace).reverse

/-- One comma-separated field of a bounds string, stripped and parsed as
an integer (the body of the list comprehension in `parse_bounds`). -/
def parseField (f : List Char) : Option Int :=
  pyInt? (pyStrip f)

/-- The two shapes `parse_bounds` accepts: the lightweight tree's string
`"l, t, r, b"` or the full tree's record with named fields. -/
inductive BoundsRep where
  | ofString (s : String)
  | ofDict (l t r b : Int)

/-- String branch of `parse_bounds` (droidutils.py lines 193-195),
abstracted over the comprehension body `int(x.strip())`:
`parts = [int(x.strip()) for x in bounds.split(",")]` followed by
`parts[0], parts[1], parts[2], parts[3]`.  The comprehension raises
`ValueError` on the first field the parser rejects; the indexing raises
`IndexError` when fewer than four fields are present.  Keeping the
field parser a parameter lets the C7 failure clause be proved for every
behavior of the builtin, including the Unicode digits the executable
instance below does not enumerate. -/
def parse_bounds_str_with (intF : List Char → Option Int) (s : String) :
    Except ParseError (Int × Int × Int × Int) :=
  match (splitComma s.data).mapM intF with
  | none => .error .valueError
  | some parts =>
    match parts with
    | a :: b :: c :: d :: _ => .ok (a, b, c, d)
    | _ => .error .indexError

/-- String branch of `parse_bounds` at the executable field parser
`parseField` (the model of `int(x.strip())`). -/
def parse_bounds_str (s : String) : Except ParseError (Int × Int × Int × Int) :=
  parse_bounds_str_with parseField s

/-- Embeds `parse_bounds` (droidutils.py lines 181-195). -/
def parse_bounds : BoundsRep → Except ParseError (Int × Int × Int × Int)
  | .ofDict l t r b => .ok (l, t, r, b)
  | .ofString s => parse_bounds_str s

/-- Number of comma-separated fields of `s` accepted by a given field
parser. -/
def numericFieldCount_with (intF : List Char → Option Int) (s : String) : Nat :=
  ((splitComma s.data).filterMap intF).length

/-- Number of comma-separated fields of `s` that parse as integers
under the executable field parser. -/
def numericFieldCount (s : String) : Nat :=
  numericFieldCount_with parseField s

/-- Embeds `center_of` (droidutils.py lines 215-218): integer midpoint with
Python floor division. -/
def center_of (s : String) : Except ParseError (Int × Int) := do
  let (l, t, r, b) ← parse_bounds (.ofString s)
  return ((l + r) / 2, (t + b) / 2)

/-- Embeds `get_element_size` (droidutils.py lines 221-224). -/
def get_element_size (s : String) : Except ParseError (Int × Int) := do
  let (l, t, r, b) ← parse_bounds (.ofString s)
  return (r - l, b - t)

/-- Attributes of one accessibility node.  Each field models the
corresponding dict key; `Option` fields model keys that may be absent
(`dict.get` returning `None`), string fields with default `""` model
`dict.get(key, "")`. -/
structure NodeData where
  index : Option Int := none
  text : String := ""
  contentDescription : String := ""
  className : String := ""
  resourceId : String := ""
  bounds : String := ""
  boundsInScreen : Option (Int × Int × Int × Int) := none
  isCheckable : Option Bool := none
  isChecked : Option Bool := none
  checked : Option Bool := none
  isEnabled : Option Bool := none
  enabled : Option Bool := none
  isSelected : Option Bool := none
  selected : Option Bool := none
  isFocused : Option Bool := none
  focused : Option Bool := none
  isClickable : Option Bool := none
  clickable : Option Bool := none
deriving DecidableEq

mutual
/-- An accessibility node: its attributes and its ordered children. -/
inductive Node where
  | mk (data : NodeData) (children : Forest)

/-- An ordered list of sibling nodes (the snapshot is a forest of
roots).  A dedicated type rather than `List Node` so that tree
recursions are structural and kernel-reducible. -/
inductive Forest where
  | nil
  | cons (hd : Node) (tl : Forest)
end

def Node.data : Node → NodeData
  | .mk d _ => d

def Node.children : Node → Forest
  | .mk _ c => c

/-- Truthiness of a Python value that is `None` or an `int`: `None` and
`0` are falsy. -/
def optTruthy : Option Int → Bool
  | some v => v != 0
  | none => false

/-- Python `a > b` on two values known to be ints (used only after a
truthiness check has established both are ints). -/
def optGt : Option Int → Option Int → Bool
  | some x, some y => x > y
  | _, _ => false

/-- Python `a or b` on bool-or-None values: returns `a` when truthy
(i.e. `True`), otherwise `b`. -/
def pyOr (a b : Option Bool) : Option Bool :=
  if a = some true then a else b

/-- Python `str(b).lower()` for a bool. -/
def pyBoolStr (b : Bool) : String :=
  if b then "true" else "false"

/-- True when the first list is a leading segment of the second
(Python `s.startswith(p)` on the char lists). -/
def leadEq : List Char → List Char → Bool
  | [], _ => true
  | _ :: _, [] => false
  | c :: cs, d :: ds => c == d && leadEq cs ds

/-- Python `needle in hay` substring test on char lists. -/
def hasSub : List Char → List Char → Bool
  | needle, [] => needle.isEmpty
  | needle, d :: ds => leadEq needle (d :: ds) || hasSub needle ds

/-- Python `s.lower()`: per-character lowercasing. -/
def pyLower (cs : List Char) : List Char :=
  cs.map Char.toLower

/-- Everything after the last occurrence of `sep`
(Python `s.rsplit(sep, 1)[-1]`, on a string known to contain `sep`). -/
def afterLast (sep : Char) (cs : List Char) : List Char :=
  ((cs.reverse).takeWhile (· != sep)).reverse

/-- Embeds `short_class_name` (droidutils.py lines 521-523):
`class_name.rsplit(".", 1)[-1] if "." in class_name else class_name`. -/
def short_class_name (s : String) : String :=
  if s.data.contains '.' then String.mk (afterLast '.' s.data) else s

/-- Embeds `short_resource_id` (droidutils.py lines 526-530). -/
def short_resource_id (rid : String) : String :=
  if rid = "" || hasSub "obfuscated".data rid.data then ""
  else if rid.data.contains '/' then String.mk (afterLast '/' rid.data)
  else rid

/-- Embeds `MIN_ELEMENT_SIZE` (droidutils.py line 22). -/
def MIN_ELEMENT_SIZE : Int := 5

/-- Embeds `VISIBILITY_THRESHOLD` (droidutils.py line 23); the Python float
`0.1` modelled as the exact rational. -/
def VISIBILITY_THRESHOLD : ℚ := 1 / 10

/-- Embeds `NOISE_CLASSES` (droidutils.py lines 28-34). -/
def NOISE_CLASSES : List String :=
  ["View", "FrameLayout", "LinearLayout", "RelativeLayout",
   "ConstraintLayout", "CoordinatorLayout", "ViewGroup",
   "RecyclerView", "ScrollView", "HorizontalScrollView",
   "NestedScrollView", "ViewPager", "ViewPager2",
   "ComposeView", "AndroidComposeView"]

/-- Embeds the source's `KEYBOARD_PREFIXES` (droidutils.py lines 37-41): the
input-method package name starts filtered out by
`is_keyboard_element`. -/
def KEYBOARD_PKGS : List String :=
  ["com.google.android.inputmethod",
   "com.android.inputmethod",
   "com.samsung.android.honeyboard"]

/-- Embeds `get_bounds` (droidutils.py lines 198-212): prefer the lightweight
string field, else format the full tree's record as a string, else
return the empty string. -/
def get_bounds (n : NodeData) : String :=
  if n.bounds != "" then n.bounds
  else
    match n.boundsInScreen with
    | some (l, t, r, b) => s!"{l}, {t}, {r}, {b}"
    | none => ""

/-- Embeds `is_too_small` (droidutils.py lines 231-237). -/
def is_too_small (n : NodeData) (min_size : Int) : Except ParseError Bool :=
  let bounds := get_bounds n
  if bounds = "" then .ok false
  else do
    let (w, h) ← get_element_size bounds
    .ok (decide (w < min_size) || decide (h < min_size))

/-- Embeds `is_keyboard_element` (droidutils.py lines 240-243). -/
def is_keyboard_element (n : NodeData) : Bool :=
  KEYBOARD_PKGS.any (fun p => leadEq p.data n.resourceId.data)

/-- The clipped-area over total-area fraction computed inside
`is_visible` (droidutils.py lines 265-274), in exact rationals.  Only
meaningful when the clipped rectangle is nonempty and the total area is
nonzero, which is what `is_visible` checks before dividing. -/
def visFrac (l t r b screen_width screen_height : Int) : ℚ :=
  let vl := max l 0
  let vt := max t 0
  let vr := min r screen_width
  let vb := min b screen_height
  let visible_area := (vr - vl) * (vb - vt)
  let total_area := (r - l) * (b - t)
  (visible_area : ℚ) / (total_area : ℚ)

/-- Embeds `is_visible` (droidutils.py lines 246-279). -/
def is_visible (n : NodeData) (screen_width screen_height : Int)
    (threshold : ℚ) : Except ParseError Bool :=
  let bounds := get_bounds n
  if bounds = "" then .ok true
  else do
    let (l, t, r, b) ← parse_bounds (.ofString bounds)
    let vl := max l 0
    let vt := max t 0
    let vr := min r screen_width
    let vb := min b screen_height
    if vr ≤ vl || vb ≤ vt then .ok false
    else
      let total_area := (r - l) * (b - t)
      if total_area = 0 then .ok false
      else .ok (decide (visFrac l t r b screen_width screen_height ≥ threshold))

/-- Embeds `is_noise` (droidutils.py lines 282-293). -/
def is_noise (n : NodeData) : Bool :=
  let class_name := n.className
  let short_class := short_class_name class_name
  if !(NOISE_CLASSES.contains short_class) then false
  else
    let text := n.text
    if text = "" || text == short_class || text == class_name then true
    else if hasSub "resource_name_obfuscated".data text.data
         || hasSub "0_resource".data text.data then true
    else false

/-- Embeds `should_filter` (droidutils.py lines 296-322).  The screen
dimensions model the Python keyword arguments that default to `None`;
the check `screen_width and screen_height` is truthiness, so `none` and
`some 0` both disable the visibility filter. -/
def should_filter (n : NodeData) (screen_width screen_height : Option Int)
    (filter_noise filter_small filter_keyboard filter_invisible : Bool) :
    Except ParseError Bool := do
  if filter_noise && is_noise n then
    return true
  if filter_small then
    if (← is_too_small n MIN_ELEMENT_SIZE) then
      return true
  if filter_keyboard && is_keyboard_element n then
    return true
  if filter_invisible && optTruthy screen_width && optTruthy screen_height then
    if !(← is_visible n (screen_width.getD 0) (screen_height.getD 0)
            VISIBILITY_THRESHOLD) then
      return true
  return false

/-- Embeds `walk_tree` (droidutils.py lines 329-342): pre-order walk appending
every node that passes the filters to `results`; the walk always
descends into children, whether or not the parent was kept.  The
`results` parameter models the Python accumulator list; the final list
is returned. -/
def walk_tree (nodes : Forest) (results : List Node)
    (screen_width screen_height : Option Int)
    (filter_noise filter_small filter_keyboard filter_invisible : Bool) :
    Except ParseError (List Node) :=
  match nodes with
  | .nil => .ok results
  | .cons (.mk d cs) rest => do
    let f ← should_filter d screen_width screen_height
              filter_noise filter_small filter_keyboard filter_invisible
    let results := if !f then results ++ [Node.mk d cs] else results
    let results ←
      match cs with
      | .nil => pure results
      | _ => walk_tree cs results screen_width screen_height
               filter_noise filter_small filter_keyboard filter_invisible
    walk_tree rest results screen_width screen_height
      filter_noise filter_small filter_keyboard filter_invisible
termination_by structural nodes

/-- Insertion into the Python dict modelled as an association list:
assigning to an existing key overwrites it in place, a new key is
appended. -/
def dictInsert (m : List (Int × Node)) (k : Int) (v : Node) :
    List (Int × Node) :=
  if m.any (fun p => p.1 == k) then
    m.map (fun p => if p.1 == k then (k, v) else p)
  else m ++ [(k, v)]

/-- The inner `walk` of `build_index` (droidutils.py lines 356-361),
threading the dict being built. -/
def build_index_walk (nodes : Forest) (m : List (Int × Node)) :
    List (Int × Node) :=
  match nodes with
  | .nil => m
  | .cons (.mk d cs) rest =>
    let m :=
      match d.index with
      | some idx => dictInsert m idx (Node.mk d cs)
      | none => m
    build_index_walk rest (build_index_walk cs m)
termination_by structural nodes

/-- Embeds `build_index` (droidutils.py lines 345-364). -/
def build_index (tree : Forest) : List (Int × Node) :=
  build_index_walk tree []

/-- Embeds `find_element` (droidutils.py lines 367-392, identical logic in
droid-wait.py lines 55-70): pre-order search returning the first node
whose nonempty text matches; exact mode is string equality, non-exact
mode is case-insensitive substring containment. -/
def find_element (nodes : Forest) (search_text : String) (exact : Bool) :
    Option Node :=
  match nodes with
  | .nil => none
  | .cons (.mk d cs) rest =>
    let text := d.text
    let matched : Bool :=
      if text != "" then
        if exact then text == search_text
        else hasSub (pyLower search_text.data) (pyLower text.data)
      else false
    if matched then some (Node.mk d cs)
    else
      match (match cs with
             | .nil => none
             | _ => find_element cs search_text exact) with
      | some found => some found
      | none => find_element rest search_text exact
termination_by structural nodes

/-- Pre-order flattening of a forest (specification-side view of the
traversal order used by `walk_tree`, `find_element` and
`find_overlaps`). -/
def preorder : Forest → List Node
  | .nil => []
  | .cons (.mk d cs) rest => Node.mk d cs :: (preorder cs ++ preorder rest)
termination_by structural f => f

/-- The predicate a node must satisfy to be returned by `find_element`:
nonempty text that matches the query. -/
def node_matches (search_text : String) (exact : Bool) (n : Node) : Bool :=
  n.data.text != "" &&
    (if exact then n.data.text == search_text
     else hasSub (pyLower search_text.data) (pyLower n.data.text.data))

/-- The `is_blocked` closure inside `find_clear_point` (droidutils.py
lines 431-435): inclusive containment in any blocker rectangle. -/
def is_blocked (blockers : List (Int × Int × Int × Int)) (x y : Int) : Bool :=
  blockers.any (fun q =>
    match q with
    | (bl, bt, br, bb) =>
      decide (bl ≤ x) && decide (x ≤ br) && decide (bt ≤ y) && decide (y ≤ bb))

/-- Embeds `find_clear_point` (droidutils.py lines 413-459).  The Python
recursion carries `depth` and `max_depth` and stops when
`depth >= max_depth`; here `fuel` is the remaining budget
`max_depth - depth` (so `fuel = 0` is exactly `depth >= max_depth`),
which makes the recursion structural.  Callers pass `depth=0`,
`max_depth=4`, i.e. `fuel = 4`.  Quadrants are tried in the source's
fixed order: top-left, top-right, bottom-left, bottom-right. -/
def find_clear_point (l t r b : Int)
    (blockers : List (Int × Int × Int × Int)) (fuel : Nat) :
    Option (Int × Int) :=
  let cx := (l + r) / 2
  let cy := (t + b) / 2
  if !is_blocked blockers cx cy then some (cx, cy)
  else
    match fuel with
    | 0 => none
    | fuel' + 1 =>
      if (r - l) * (b - t) < 100 then none
      else
        match find_clear_point l t cx cy blockers fuel' with
        | some p => some p
        | none =>
          match find_clear_point cx t r cy blockers fuel' with
          | some p => some p
          | none =>
            match find_clear_point l cy cx b blockers fuel' with
            | some p => some p
            | none => find_clear_point cx cy r b blockers fuel'

/-- The `find_overlaps` closure inside `get_tap_point` (droidutils.py
lines 487-507), accumulating blocker rectangles in visit order.  Note
the source reads the raw `"bounds"` key (not `get_bounds`), `continue`s
past the node whose index equals the target's — skipping its entire
subtree — and likewise skips the whole subtree of any node whose
`"bounds"` string is empty. -/
def find_overlaps (target_idx : Option Int) (l t r b : Int) :
    Forest → Except ParseError (List (Int × Int × Int × Int))
  | .nil => .ok []
  | .cons (.mk d cs) rest =>
    if d.index == target_idx then find_overlaps target_idx l t r b rest
    else if d.bounds = "" then find_overlaps target_idx l t r b rest
    else do
      let (nl, nt, nr, nb) ← parse_bounds (.ofString d.bounds)
      let here :=
        if optTruthy d.index && optTruthy target_idx && optGt d.index target_idx then
          if !(decide (nr ≤ l) || decide (nl ≥ r) || decide (nb ≤ t) || decide (nt ≥ b)) then
            [(nl, nt, nr, nb)]
          else []
        else []
      let fromChildren ← find_overlaps target_idx l t r b cs
      let fromRest ← find_overlaps target_idx l t r b rest
      .ok (here ++ fromChildren ++ fromRest)
termination_by structural f => f

/-- Embeds `get_tap_point` (droidutils.py lines 462-514).  Returns `none` when
the element has no bounds (`return None` in the source); an empty
forest models the falsy default `tree=None`. -/
def get_tap_point (element : NodeData) (tree : Forest) :
    Except ParseError (Option (Int × Int)) := do
  let bounds := get_bounds element
  if bounds = "" then
    return none
  let (l, t, r, b) ← parse_bounds (.ofString bounds)
  let cx := (l + r) / 2
  let cy := (t + b) / 2
  match tree with
  | .nil => return some (cx, cy)
  | _ =>
    let blockers ← find_overlaps element.index l t r b tree
    if blockers.isEmpty then
      return some (cx, cy)
    else
      match find_clear_point l t r b blockers 4 with
      | some p => return some p
      | none => return some (cx, cy)

/-- Python `sep.join(parts)`. -/
def join_sep (sep : String) : List String → String
  | [] => ""
  | [p] => p
  | p :: rest => p ++ sep ++ join_sep sep rest

/-- Embeds `format_element` (droidutils.py lines 533-588): the human-readable
one-line rendering. -/
def format_element (n : NodeData) (include_state : Bool) :
    Except ParseError String := do
  let idxStr := match n.index with
                | some i => toString i
                | none => "?"
  let text := if n.text != "" then n.text else n.contentDescription
  let bounds := get_bounds n
  let class_name := short_class_name n.className
  let resource_id := short_resource_id n.resourceId
  let parts : List String := [s!"[{idxStr}]"]
  let parts := if text != "" then parts ++ [s!"\"{text}\""] else parts
  let parts ←
    if bounds != "" then do
      let (cx, cy) ← center_of bounds
      let (l, t, r, b) ← parse_bounds (.ofString bounds)
      pure (parts ++ [s!"center=({cx},{cy})", s!"bounds=({l},{t},{r},{b})"])
    else pure parts
  let parts := parts ++ [s!"class={class_name}"]
  let parts := if resource_id != "" then parts ++ [s!"id={resource_id}"] else parts
  let parts ←
    if include_state then do
      let states : List String := []
      let is_checkable := n.isCheckable
      let checked := match n.isChecked with
                     | some v => some v
                     | none => n.checked
      let states :=
        if is_checkable = some true || checked.isSome then
          match checked with
          | some v =>
            let vs := pyBoolStr v
            states ++ [s!"checked={vs}"]
          | none => states
        else states
      let enabled := match n.isEnabled with
                     | some v => some v
                     | none => n.enabled
      let states := if enabled = some false then states ++ ["enabled=false"] else states
      let states := if pyOr n.isSelected n.selected = some true then
                      states ++ ["selected=true"]
                    else states
      let states := if pyOr n.isFocused n.focused = some true then
                      states ++ ["focused=true"]
                    else states
      if states != [] then
        let inner := join_sep ", " states
        pure (parts ++ [s!"[{inner}]"])
      else pure parts
    else pure parts
  return join_sep " " parts

/-- The JSON-serializable record built by `format_element_json`
(droidutils.py lines 591-621). -/
structure ElementJson where
  index : Option Int
  text : String
  className : String
  bounds : String
  center : Option (Int × Int)
  resourceId : String
  checked : Option Bool
  enabled : Option Bool
  selected : Option Bool
  focused : Option Bool
  clickable : Option Bool
deriving DecidableEq

/-- Embeds `format_element_json` (droidutils.py lines 591-621). -/
def format_element_json (n : NodeData) : Except ParseError ElementJson := do
  let bounds := get_bounds n
  let center ←
    if bounds != "" then do
      let c ← center_of bounds
      pure (some c)
    else pure none
  let text := if n.text != "" then n.text else n.contentDescription
  return {
    index := n.index
    text := text
    className := short_class_name n.className
    bounds := bounds
    center := center
    resourceId := short_resource_id n.resourceId
    checked := match n.isChecked with
               | some v => some v
               | none => n.checked
    enabled := match n.isEnabled with
               | some v => some v
               | none => n.enabled
    selected := pyOr n.isSelected n.selected
    focused := pyOr n.isFocused n.focused
    clickable := pyOr n.isClickable n.clickable }

/-- Outcome of one iteration's query in the droid-wait poll loop
(droid-wait.py lines 90-95), abstracting the adb round trip:
`adbMissing` is `FileNotFoundError` (the only case where `run_adb`
terminates the process), `failed` covers a timed-out or non-zero-exit
adb call and a malformed or non-success response (all of which make
`run_adb`/`parse_content_provider` return `None`), and `tree` is a
successfully parsed forest of roots. -/
inductive Attempt where
  | adbMissing
  | failed
  | tree (roots : Forest)

/-- How the droid-wait process ends (droid-wait.py lines 83-111). -/
inductive WaitOutcome where
  | timeoutExit
  | adbMissingExit
  | found (n : Node)
  | exhausted

/-- The poll loop of droid-wait `main` (droid-wait.py lines 81-111),
driven by a trace of `(elapsed, attempt)` pairs: each iteration first
compares the elapsed time against the overall timeout and exits with a
timeout error if it has passed, then performs one query attempt; a
failed attempt just continues with the rest of the trace.
`exhausted` means the finite trace ended before the loop did. -/
def wait_main (search_text : String) (exact : Bool) (timeout : ℚ) :
    List (ℚ × Attempt) → WaitOutcome
  | [] => .exhausted
  | (elapsed, att) :: rest =>
    if elapsed ≥ timeout then .timeoutExit
    else
      match att with
      | .adbMissing => .adbMissingExit
      | .failed => wait_main search_text exact timeout rest
      | .tree roots =>
        match roots with
        | .nil => wait_main search_text exact timeout rest
        | _ =>
          match find_element roots search_text exact with
          | some n => .found n
          | none => wait_main search_text exact timeout rest

/-- The parsed snapshot held by a command for the rest of its run. -/
structure Snapshot where
  roots : Forest


/-- Runs `walk_tree` as an operation on the snapshot state: the source only
reads the tree (it appends kept nodes to a fresh `results` list), so the
state component is returned untouched. -/
def walk_tree_op (s : Snapshot) (screen_width screen_height : Option Int)
    (fn fs fk fi : Bool) : Except ParseError (List Node) × Snapshot :=
  (walk_tree s.roots [] screen_width screen_height fn fs fk fi, s)

/-- Runs `build_index` as an operation on the snapshot state: builds a fresh
dict, reads the tree. -/
def build_index_op (s : Snapshot) : List (Int × Node) × Snapshot :=
  (build_index s.roots, s)

/-- Runs `find_element` as an operation on the snapshot state. -/
def find_element_op (s : Snapshot) (search_text : String) (exact : Bool) :
    Option Node × Snapshot :=
  (find_element s.roots search_text exact, s)

/-- Runs `get_tap_point` as an operation on the snapshot state. -/
def get_tap_point_op (s : Snapshot) (element : NodeData) :
    Except ParseError (Option (Int × Int)) × Snapshot :=
  (get_tap_point element s.roots, s)

/-- Runs `format_element` as an operation on the snapshot state. -/
def format_element_op (s : Snapshot) (element : NodeData)
    (include_state : Bool) : Except ParseError String × Snapshot :=
  (format_element element include_state, s)

/-- The bounds string parsed to a rectangle, when that succeeds. -/
def parseRect? (s : String) : Option (Int × Int × Int × Int) :=
  (parse_bounds (.ofString s)).toOption

/-- Modelled from the claim's words for the blocker-collection step of
`get_tap_point`: every other node in the forest whose index is
numerically greater than the target's index and whose bounds rectangle
intersects the target's rectangle under the standard AABB overlap test;
nodes without bounds are skipped as non-blockers.  Compared against the
source-derived `find_overlaps`. -/
def blockers_per_claim (target_idx l t r b : Int) (f : Forest) :
    List (Int × Int × Int × Int) :=
  (preorder f).filterMap fun n =>
    if n.data.index = some target_idx then none
    else
      match n.data.index, parseRect? n.data.bounds with
      | some i, some (nl, nt, nr, nb) =>
        if i > target_idx
           && !(decide (nr ≤ l) || decide (nl ≥ r) || decide (nb ≤ t) || decide (nt ≥ b)) then
          some (nl, nt, nr, nb)
        else none
      | _, _ => none

/-- The nodes that `find_overlaps` actually examines: a pre-order walk
that skips, together with their entire subtrees, the node whose index
equals the target's and every node whose raw `"bounds"` string is
empty. -/
def visit_nodes (target_idx : Option Int) : Forest → List Node
  | .nil => []
  | .cons (.mk d cs) rest =>
    if d.index == target_idx then visit_nodes target_idx rest
    else if d.bounds = "" then visit_nodes target_idx rest
    else Node.mk d cs :: (visit_nodes target_idx cs ++ visit_nodes target_idx rest)
termination_by structural f => f

/-- The blocker test `find_overlaps` applies to each visited node: both
indices truthy (present and nonzero), the node's index greater, and the
rectangles overlapping. -/
def blocker_of (target_idx : Option Int) (l t r b : Int) (n : Node) :
    Option (Int × Int × Int × Int) :=
  match parseRect? n.data.bounds with
  | some (nl, nt, nr, nb) =>
    if optTruthy n.data.index && optTruthy target_idx && optGt n.data.index target_idx then
      if !(decide (nr ≤ l) || decide (nl ≥ r) || decide (nb ≤ t) || decide (nt ≥ b)) then
        some (nl, nt, nr, nb)
      else none
    else none
  | none => none

/-- Target element used by the C1 counterexample and the C2 scenarios:
index 1, bounds covering (0,0)-(100,100). -/
def targetData : NodeData :=
  { index := some 1, bounds := "0, 0, 100, 100" }

/-- Higher-index child of the target, fully overlapping it. -/
def childBlocker : Node :=
  Node.mk { index := some 2, bounds := "0, 0, 100, 100" } .nil

/-- Forest in which the only candidate blocker is a child of the target
node itself. -/
def forestChildOnly : Forest :=
  .cons (Node.mk targetData (.cons childBlocker .nil)) .nil

/-- Sibling blocker with higher index fully covering the target. -/
def fullBlocker : Node :=
  Node.mk { index := some 2, bounds := "0, 0, 100, 100" } .nil

/-- Sibling blocker with higher index covering only the target's
top-left quadrant. -/
def tlBlocker : Node :=
  Node.mk { index := some 2, bounds := "0, 0, 50, 50" } .nil

/-- Forest for the full-overlap C2 scenario. -/
def forestFull : Forest :=
  .cons (Node.mk targetData .nil) (.cons fullBlocker .nil)

/-- Forest for the top-left-quadrant C2 scenario. -/
def forestTL : Forest :=
  .cons (Node.mk targetData .nil) (.cons tlBlocker .nil)

/-- The C5 scenario's Button node: text "OK", bounds "10, 10, 50, 30",
pre-order index 2. -/
def buttonData : NodeData :=
  { index := some 2, text := "OK", className := "Button",
    bounds := "10, 10, 50, 30" }

/-- The C5 Button as a leaf node. -/
def buttonNode : Node :=
  Node.mk buttonData .nil

/-- The C5 scenario's root FrameLayout: no text, one Button child. -/
def frameRoot : Node :=
  Node.mk { index := some 1, className := "FrameLayout" }
    (.cons buttonNode .nil)

/-- The C5 snapshot: one root FrameLayout containing the Button. -/
def snapshotC5 : Forest :=
  .cons frameRoot .nil

/-- Node whose only state key is `isSelected: false` (C8
counterexample input). -/
def selFalseData : NodeData :=
  { isSelected := some false }

/-- Node with text "Login Button" (C6 exact-match scenario). -/
def loginButtonData : NodeData :=
  { index := some 1, text := "Login Button", className := "Button" }

/-- One-node forest for the C6 exact-match scenario. -/
def loginForest : Forest :=
  .cons (Node.mk loginButtonData .nil) .nil

/-- Node with text "OK" used by the C9 witness. -/
def okNode : Node :=
  Node.mk { index := some 1, text := "OK" } .nil

/-- One-node forest used by the C9 witness. -/
def okForest : Forest :=
  .cons okNode .nil

/-- Equality of `Except` results is decidable (used to evaluate the
embedded functions on concrete snapshots). -/
instance {ε α : Type} [DecidableEq ε] [DecidableEq α] : DecidableEq (Except ε α) := fun a b =>
  match a, b with
  | .ok x, .ok y => decidable_of_iff (x = y) (by simp)
  | .error e, .error f => decidable_of_iff (e = f) (by simp)
  | .ok _, .error _ => isFalse (fun h => Except.noConfusion h)
  | .error _, .ok _ => isFalse (fun h => Except.noConfusion h)

/-- Induction principle for forests that recurses both into the head
node's children and into the remaining siblings. -/
def Forest.inductionOn {motive : Forest → Prop} (hnil : motive .nil)
    (hcons : ∀ (d : NodeData) (cs rest : Forest),
      motive cs → motive rest → motive (.cons (.mk d cs) rest)) :
    ∀ f, motive f
  | .nil => hnil
  | .cons (.mk d cs) rest =>
    hcons d cs rest (Forest.inductionOn hnil hcons cs)
      (Forest.inductionOn hnil hcons rest)
termination_by structural f => f

theorem is_blocked_eq_false_iff (blockers : List (Int × Int × Int × Int)) (x y : Int) :
    is_blocked blockers x y = false ↔
      ∀ q ∈ blockers, ¬(q.1 ≤ x ∧ x ≤ q.2.2.1 ∧ q.2.1 ≤ y ∧ y ≤ q.2.2.2) := by
  simp only [is_blocked, List.any_eq_false]
  constructor
  · intro h q hq
    have := h q hq
    rcases q with ⟨bl, bt, br, bb⟩
    simp only [Bool.and_eq_true, decide_eq_true_eq] at this
    intro hc
    exact this ⟨⟨⟨hc.1, hc.2.1⟩, hc.2.2.1⟩, hc.2.2.2⟩
  · intro h q hq
    have := h q hq
    rcases q with ⟨bl, bt, br, bb⟩
    simp only [Bool.and_eq_true, decide_eq_true_eq]
    intro hc
    exact this ⟨hc.1.1.1, hc.1.1.2, hc.1.2, hc.2⟩

/-- Claim C3: whenever `find_clear_point` returns a point on a
well-formed rectangle (right at least left, bottom at least top), the
point lies within the originally given bounds, inclusive, and is not
inside any blocker rectangle under the inclusive containment test. -/
theorem find_clear_point_in_bounds (fuel : Nat) :
    ∀ (l t r b x y : Int) (blockers : List (Int × Int × Int × Int)),
      l ≤ r → t ≤ b →
      find_clear_point l t r b blockers fuel = some (x, y) →
      l ≤ x ∧ x ≤ r ∧ t ≤ y ∧ y ≤ b ∧
        ∀ q ∈ blockers, ¬(q.1 ≤ x ∧ x ≤ q.2.2.1 ∧ q.2.1 ≤ y ∧ y ≤ q.2.2.2) := by
  induction fuel with
  | zero =>
    intro l t r b x y blockers hlr htb h
    rw [find_clear_point] at h
    by_cases hb : is_blocked blockers ((l + r) / 2) ((t + b) / 2) = false
    · simp only [hb, Bool.not_false, if_true, Option.some.injEq, Prod.mk.injEq] at h
      obtain ⟨hx, hy⟩ := h
      subst hx; subst hy
      refine ⟨by omega, by omega, by omega, by omega, ?_⟩
      exact (is_blocked_eq_false_iff blockers _ _).mp hb
    · rw [Bool.not_eq_false] at hb
      simp [hb] at h
  | succ fuel ih =>
    intro l t r b x y blockers hlr htb h
    rw [find_clear_point] at h
    by_cases hb : is_blocked blockers ((l + r) / 2) ((t + b) / 2) = false
    · simp only [hb, Bool.not_false, if_true, Option.some.injEq, Prod.mk.injEq] at h
      obtain ⟨hx, hy⟩ := h
      subst hx; subst hy
      refine ⟨by omega, by omega, by omega, by omega, ?_⟩
      exact (is_blocked_eq_false_iff blockers _ _).mp hb
    · rw [Bool.not_eq_false] at hb
      simp only [hb, Bool.not_true, if_false] at h
      by_cases ha : (r - l) * (b - t) < 100
      · simp [ha] at h
      · simp only [ha, if_false] at h
        set cx := (l + r) / 2 with hcx
        set cy := (t + b) / 2 with hcy
        have hcx1 : l ≤ cx := by omega
        have hcx2 : cx ≤ r := by omega
        have hcy1 : t ≤ cy := by omega
        have hcy2 : cy ≤ b := by omega
        rcases h1 : find_clear_point l t cx cy blockers fuel with _ | p1
        · rcases h2 : find_clear_point cx t r cy blockers fuel with _ | p2
          · rcases h3 : find_clear_point l cy cx b blockers fuel with _ | p3
            · rw [h1, h2, h3] at h
              have := ih cx cy r b x y blockers hcx2 hcy2 h
              exact ⟨by omega, by omega, by omega, by omega, this.2.2.2.2⟩
            · rw [h1, h2, h3] at h
              rcases p3 with ⟨px, py⟩
              have hpe : px = x ∧ py = y := by simpa using h
              obtain ⟨rfl, rfl⟩ := hpe
              have := ih l cy cx b px py blockers hcx1 hcy2 h3
              exact ⟨by omega, by omega, by omega, by omega, this.2.2.2.2⟩
          · rw [h1, h2] at h
            rcases p2 with ⟨px, py⟩
            have hpe : px = x ∧ py = y := by simpa using h
            obtain ⟨rfl, rfl⟩ := hpe
            have := ih cx t r cy px py blockers hcx2 hcy1 h2
            exact ⟨by omega, by omega, by omega, by omega, this.2.2.2.2⟩
        · rw [h1] at h
          rcases p1 with ⟨px, py⟩
          have hpe : px = x ∧ py = y := by simpa using h
          obtain ⟨rfl, rfl⟩ := hpe
          have := ih l t cx cy px py blockers hcx1 hcy1 h1
          exact ⟨by omega, by omega, by omega, by omega, this.2.2.2.2⟩

/-- Witness for C3: the theorem applied to the target (0,0,100,100)
with no blockers, which yields the plain center. -/
theorem find_clear_point_in_bounds_witness :
    (0 : Int) ≤ 100 ∧ (0 : Int) ≤ 100 ∧
      (0 ≤ (50 : Int) ∧ (50 : Int) ≤ 100 ∧ 0 ≤ (50 : Int) ∧ (50 : Int) ≤ 100 ∧
        ∀ q ∈ ([] : List (Int × Int × Int × Int)),
          ¬(q.1 ≤ (50 : Int) ∧ (50 : Int) ≤ q.2.2.1 ∧ q.2.1 ≤ (50 : Int) ∧ (50 : Int) ≤ q.2.2.2)) :=
  ⟨by decide, by decide,
    by
      have h := find_clear_point_in_bounds 4 0 0 100 100 50 50 []
        (by decide) (by decide) (by decide)
      exact ⟨h.1, h.2.1, h.2.2.1, h.2.2.2.1, h.2.2.2.2⟩⟩

/-- Claim C2: with the target at (0,0,100,100), a single higher-index
blocker covering all of it makes `find_clear_point` return none and
`get_tap_point` fall back to the plain center (50,50); with a single
higher-index blocker covering only the top-left quadrant (0,0,50,50),
`get_tap_point` returns (75,25), a point inside the target's top-right
quadrant and outside the blocked top-left quadrant. -/
theorem get_tap_point_occlusion_cases :
    find_clear_point 0 0 100 100 [(0, 0, 100, 100)] 4 = none
    ∧ get_tap_point targetData forestFull = .ok (some (50, 50))
    ∧ get_tap_point targetData forestTL = .ok (some (75, 25))
    ∧ ((50 : Int) ≤ 75 ∧ (75 : Int) ≤ 100 ∧ (0 : Int) ≤ 25 ∧ (25 : Int) ≤ 50)
    ∧ ¬((0 : Int) ≤ 75 ∧ (75 : Int) ≤ 50 ∧ (0 : Int) ≤ 25 ∧ (25 : Int) ≤ 50) := by
  refine ⟨by decide, by decide, by decide, by decide, by decide⟩

/-- Unfolding of `find_element` at a cons cell; the inner guard on
empty children collapses, since `find_element` of an empty forest is
`none` anyway. -/
theorem find_element_cons (d : NodeData) (cs rest : Forest) (q : String) (e : Bool) :
    find_element (.cons (.mk d cs) rest) q e =
      (if (if d.text != "" then
             (if e then d.text == q
              else hasSub (pyLower q.data) (pyLower d.text.data))
           else false) then some (Node.mk d cs)
       else
         match find_element cs q e with
         | some found => some found
         | none => find_element rest q e) := by
  cases cs <;> rfl

theorem matched_eq_node_matches (d : NodeData) (cs : Forest) (q : String) (e : Bool) :
    (if d.text != "" then
       (if e then d.text == q
        else hasSub (pyLower q.data) (pyLower d.text.data))
     else false) = node_matches q e (Node.mk d cs) := by
  cases h : d.text != "" <;> simp [node_matches, Node.data, h]

/-- Claim C6: `find_element` is exactly the first match, in pre-order
traversal order, of the predicate "nonempty text that equals the query
(exact mode) or contains it case-insensitively (non-exact mode)"; in
particular exact mode with query "Login" does not match a node whose
text is "Login Button", while non-exact mode matches it through a
case-insensitive substring. -/
theorem find_element_is_preorder_first_match :
    (∀ (f : Forest) (q : String) (e : Bool),
      find_element f q e = (preorder f).find? (node_matches q e))
    ∧ find_element loginForest "Login" true = none
    ∧ find_element loginForest "login but" false = some (Node.mk loginButtonData .nil) := by
  refine ⟨?_, rfl, rfl⟩
  intro f q e
  induction f using Forest.inductionOn with
  | hnil => rfl
  | hcons d cs rest ihc ihr =>
    rw [find_element_cons, preorder, List.find?_cons]
    rw [matched_eq_node_matches d cs q e]
    cases hm : node_matches q e (Node.mk d cs) with
    | true => simp
    | false =>
      simp only [if_false, Bool.false_eq_true]
      rw [List.find?_append, ← ihc, ← ihr]
      cases find_element cs q e <;> rfl

/-- Claim C10: each read operation over a parsed snapshot — filtered
flattening, index building, text search, tap-point selection and
formatting — returns its result alongside an unchanged snapshot: the
source functions only append to fresh local accumulators and never
write to the tree. -/
theorem snapshot_ops_preserve_tree :
    ∀ (s : Snapshot) (sw sh : Option Int) (fn fs fk fi : Bool)
      (q : String) (e : Bool) (el : NodeData) (ist : Bool),
      (walk_tree_op s sw sh fn fs fk fi).2 = s
      ∧ (build_index_op s).2 = s
      ∧ (find_element_op s q e).2 = s
      ∧ (get_tap_point_op s el).2 = s
      ∧ (format_element_op s el ist).2 = s := by
  intro s sw sh fn fs fk fi q e el ist
  exact ⟨rfl, rfl, rfl, rfl, rfl⟩

/-- Claim C1 counterexample: in a forest where the only
higher-index overlapping node is a child of the target itself,
`find_overlaps` collects no blockers, while the claim's
characterization (every other node with greater index and overlapping
bounds) collects the child: the `continue` on the target's index skips
the target's entire subtree. -/
theorem find_overlaps_claim_counterexample :
    find_overlaps (some 1) 0 0 100 100 forestChildOnly = .ok []
    ∧ blockers_per_claim 1 0 0 100 100 forestChildOnly = [(0, 0, 100, 100)]
    ∧ (([] : List (Int × Int × Int × Int)) ≠ [(0, 0, 100, 100)]) := by
  refine ⟨by decide, by decide, by decide⟩

theorem except_isOk_exists {α : Type} (x : Except ParseError α)
    (h : x.isOk = true) : ∃ v, x = .ok v := by
  cases x with
  | ok v => exact ⟨v, rfl⟩
  | error e => simp [Except.isOk, Except.toBool] at h

/-- Claim C1 (amended): `find_overlaps` collects as blockers exactly
the nodes of a pruned pre-order traversal — one that skips, with their
entire subtrees, the node carrying the target's index and every node
without a raw bounds string — that pass the test "both indices truthy,
node index greater than the target's, and rectangles overlapping under
the standard AABB test" (assuming every visited bounds string
parses). -/
theorem find_overlaps_eq_pruned_filter (tidx : Option Int) (l t r b : Int) :
    ∀ f : Forest,
      (∀ n ∈ visit_nodes tidx f, (parse_bounds (.ofString n.data.bounds)).isOk = true) →
      find_overlaps tidx l t r b f =
        .ok ((visit_nodes tidx f).filterMap (blocker_of tidx l t r b)) := by
  intro f
  induction f using Forest.inductionOn with
  | hnil => intro _; rfl
  | hcons d cs rest ihc ihr =>
    intro hok
    by_cases h1 : (d.index == tidx) = true
    · rw [find_overlaps, if_pos h1, visit_nodes, if_pos h1]
      refine ihr fun n hn => hok n ?_
      rw [visit_nodes, if_pos h1]
      exact hn
    · by_cases h2 : d.bounds = ""
      · rw [find_overlaps, if_neg h1, if_pos h2, visit_nodes, if_neg h1, if_pos h2]
        refine ihr fun n hn => hok n ?_
        rw [visit_nodes, if_neg h1, if_pos h2]
        exact hn
      · have hvis : visit_nodes tidx (.cons (.mk d cs) rest) =
            Node.mk d cs :: (visit_nodes tidx cs ++ visit_nodes tidx rest) := by
          rw [visit_nodes, if_neg h1, if_neg h2]
        have hok_hd : (parse_bounds (.ofString d.bounds)).isOk = true := by
          have := hok (Node.mk d cs) (by rw [hvis]; exact List.mem_cons_self _ _)
          simpa [Node.data] using this
        have hok_cs : ∀ n ∈ visit_nodes tidx cs,
            (parse_bounds (.ofString n.data.bounds)).isOk = true := by
          intro n hn
          exact hok n (by
            rw [hvis]
            exact List.mem_cons_of_mem _ (List.mem_append_left _ hn))
        have hok_rest : ∀ n ∈ visit_nodes tidx rest,
            (parse_bounds (.ofString n.data.bounds)).isOk = true := by
          intro n hn
          exact hok n (by
            rw [hvis]
            exact List.mem_cons_of_mem _ (List.mem_append_right _ hn))
        obtain ⟨⟨nl, nt, nr, nb⟩, hpe⟩ := except_isOk_exists _ hok_hd
        rw [find_overlaps, if_neg h1, if_neg h2, hvis, hpe]
        rw [List.filterMap_cons, List.filterMap_append]
        simp only [Bind.bind, Except.bind, ihc hok_cs, ihr hok_rest]
        simp only [blocker_of, parseRect?, hpe, Except.toOption, Node.data]
        by_cases hc : (optTruthy d.index && optTruthy tidx && optGt d.index tidx) = true
        · by_cases hov :
              (!(decide (nr ≤ l) || decide (nl ≥ r) || decide (nb ≤ t) || decide (nt ≥ b))) = true
          · simp [hc, hov, List.append_assoc]
          · simp only [Bool.not_eq_true] at hov
            simp [hc, hov]
        · simp only [Bool.not_eq_true] at hc
          simp [hc]

/-- Witness for the amended C1: on the top-left-blocker forest, every
visited bounds string parses, and `find_overlaps` equals the pruned
filter, collecting exactly the (0,0,50,50) blocker. -/
theorem find_overlaps_eq_pruned_filter_witness :
    (∀ n ∈ visit_nodes (some 1) forestTL,
      (parse_bounds (.ofString n.data.bounds)).isOk = true)
    ∧ find_overlaps (some 1) 0 0 100 100 forestTL =
        .ok ((visit_nodes (some 1) forestTL).filterMap (blocker_of (some 1) 0 0 100 100)) :=
  ⟨by decide, find_overlaps_eq_pruned_filter (some 1) 0 0 100 100 forestTL (by decide)⟩

/-- Claim C4 counterexample: a node with bounds (0,0,100,100) on a
50×50 screen is visible, but its visible ratio as computed by
`is_visible` is 1/4 (2500 of 10000 pixels survive clipping), not 1.0 as
claimed. -/
theorem visible_ratio_counterexample :
    visFrac 0 0 100 100 50 50 = 1 / 4
    ∧ visFrac 0 0 100 100 50 50 ≠ 1
    ∧ is_visible { bounds := "0, 0, 100, 100" } 50 50 VISIBILITY_THRESHOLD = .ok true := by
  refine ⟨by norm_num [visFrac], by norm_num [visFrac], ?_⟩
  have hp : parse_bounds (.ofString "0, 0, 100, 100") = .ok (0, 0, 100, 100) := by decide
  simp [is_visible, get_bounds, hp, VISIBILITY_THRESHOLD, Bind.bind, Except.bind]
  norm_num [visFrac]

/-- Claim C4 (amended): a node whose bounds clip to an empty rectangle
on the screen, or whose total area is zero, or whose clipped-over-total
area fraction is below the threshold, is classified invisible; a node
with no bounds is classified visible; the concrete node with bounds
(0,0,100,100) on a 50×50 screen has visible ratio 0.25 (not 1.0) and is
visible; the node at (200,200,300,300) on that screen is invisible. -/
theorem is_visible_spec :
    (∀ (n : NodeData) (w h : Int) (thr : ℚ),
      get_bounds n = "" → is_visible n w h thr = .ok true)
    ∧ (∀ (n : NodeData) (w h : Int) (thr : ℚ) (l t r b : Int),
        get_bounds n ≠ "" →
        parse_bounds (.ofString (get_bounds n)) = .ok (l, t, r, b) →
        (min r w ≤ max l 0 ∨ min b h ≤ max t 0) →
        is_visible n w h thr = .ok false)
    ∧ (∀ (n : NodeData) (w h : Int) (thr : ℚ) (l t r b : Int),
        get_bounds n ≠ "" →
        parse_bounds (.ofString (get_bounds n)) = .ok (l, t, r, b) →
        (r - l) * (b - t) = 0 →
        is_visible n w h thr = .ok false)
    ∧ (∀ (n : NodeData) (w h : Int) (thr : ℚ) (l t r b : Int),
        get_bounds n ≠ "" →
        parse_bounds (.ofString (get_bounds n)) = .ok (l, t, r, b) →
        visFrac l t r b w h < thr →
        is_visible n w h thr = .ok false)
    ∧ (visFrac 0 0 100 100 50 50 = 1 / 4
       ∧ is_visible { bounds := "0, 0, 100, 100" } 50 50 VISIBILITY_THRESHOLD = .ok true)
    ∧ is_visible { bounds := "200, 200, 300, 300" } 50 50 VISIBILITY_THRESHOLD = .ok false := by
  refine ⟨?_, ?_, ?_, ?_, ⟨by norm_num [visFrac], ?_⟩, ?_⟩
  · intro n w h thr hb
    simp [is_visible, hb]
  · intro n w h thr l t r b hb hp hcond
    simp only [is_visible, hb, if_neg hb, hp, Bind.bind, Except.bind,
      Bool.or_eq_true, decide_eq_true_eq, if_false]
    rw [if_pos hcond]
  · intro n w h thr l t r b hb hp hta
    simp only [is_visible, hb, if_neg hb, hp, Bind.bind, Except.bind,
      Bool.or_eq_true, decide_eq_true_eq, if_false]
    have h1 : r ⊓ w ≤ r := min_le_left r w
    have h2 : l ≤ l ⊔ 0 := le_max_left l 0
    have h3 : b ⊓ h ≤ b := min_le_left b h
    have h4 : t ≤ t ⊔ 0 := le_max_left t 0
    rcases mul_eq_zero.mp hta with h0 | h0
    · rw [if_pos (Or.inl (by omega))]
    · rw [if_pos (Or.inr (by omega))]
  · intro n w h thr l t r b hb hp hlt
    simp only [is_visible, hb, if_neg hb, hp, Bind.bind, Except.bind,
      Bool.or_eq_true, decide_eq_true_eq, if_false]
    by_cases hcond : (r ⊓ w ≤ l ⊔ 0 ∨ b ⊓ h ≤ t ⊔ 0)
    · rw [if_pos hcond]
    · rw [if_neg hcond]
      by_cases hta : (r - l) * (b - t) = 0
      · rw [if_pos hta]
      · rw [if_neg hta]
        simp [not_le.mpr hlt]
  · have hp : parse_bounds (.ofString "0, 0, 100, 100") = .ok (0, 0, 100, 100) := by decide
    simp [is_visible, get_bounds, hp, VISIBILITY_THRESHOLD, Bind.bind, Except.bind]
    norm_num [visFrac]
  · have hp : parse_bounds (.ofString "200, 200, 300, 300") = .ok (200, 200, 300, 300) := by decide
    simp [is_visible, get_bounds, hp, Bind.bind, Except.bind]

/-- Witness for C4: the amended theorem applied to a node with no
bounds (visible) and to the fully off-screen node (invisible). -/
theorem is_visible_spec_witness :
    (get_bounds {} = "" ∧ is_visible {} 50 50 VISIBILITY_THRESHOLD = .ok true)
    ∧ (get_bounds { bounds := "200, 200, 300, 300" } ≠ ""
       ∧ parse_bounds (.ofString (get_bounds { bounds := "200, 200, 300, 300" })) =
           .ok (200, 200, 300, 300)
       ∧ (min (300 : Int) 50 ≤ max (200 : Int) 0 ∨ min (300 : Int) 50 ≤ max (200 : Int) 0)
       ∧ is_visible { bounds := "200, 200, 300, 300" } 50 50 VISIBILITY_THRESHOLD = .ok false) :=
  ⟨⟨rfl, is_visible_spec.1 {} 50 50 VISIBILITY_THRESHOLD rfl⟩,
    ⟨by decide, by decide, by decide,
      is_visible_spec.2.1 { bounds := "200, 200, 300, 300" } 50 50 VISIBILITY_THRESHOLD
        200 200 300 300 (by decide) (by decide) (by decide)⟩⟩

/-- Claim C5: on the snapshot with one root FrameLayout (no text)
containing a Button "OK" with bounds "10, 10, 50, 30", filtered
flattening with every filter enabled (on the default 1080×1920 screen)
keeps exactly the Button, and its formatted line contains
center=(30,20) and bounds=(10,10,50,30). -/
theorem filter_format_end_to_end :
    walk_tree snapshotC5 [] (some 1080) (some 1920) true true true true = .ok [buttonNode]
    ∧ format_element buttonData true =
        .ok "[2] \"OK\" center=(30,20) bounds=(10,10,50,30) class=Button"
    ∧ hasSub "center=(30,20)".data
        "[2] \"OK\" center=(30,20) bounds=(10,10,50,30) class=Button".data = true
    ∧ hasSub "bounds=(10,10,50,30)".data
        "[2] \"OK\" center=(30,20) bounds=(10,10,50,30) class=Button".data = true := by
  refine ⟨?_, by decide, by decide, by decide⟩
  have hp : parse_bounds (.ofString "10, 10, 50, 30") = .ok (10, 10, 50, 30) := by decide
  have hv : is_visible buttonData 1080 1920 VISIBILITY_THRESHOLD = .ok true := by
    simp [is_visible, get_bounds, buttonData, hp, VISIBILITY_THRESHOLD, Bind.bind, Except.bind]
    norm_num [visFrac]
  have hsfB : should_filter buttonData (some 1080) (some 1920) true true true true = .ok false := by
    have hn : is_noise buttonData = false := by decide
    have ht : is_too_small buttonData MIN_ELEMENT_SIZE = .ok false := by decide
    have hk : is_keyboard_element buttonData = false := by decide
    simp [should_filter, hn, ht, hk, hv, optTruthy, Bind.bind, Except.bind, Pure.pure, Except.pure]
  have hsfR : should_filter { index := some 1, className := "FrameLayout" }
      (some 1080) (some 1920) true true true true = .ok true := by decide
  simp [walk_tree, snapshotC5, frameRoot, buttonNode, hsfR, hsfB,
    Bind.bind, Except.bind, Pure.pure, Except.pure]

theorem mapM_filterMap_lengths (g : List Char → Option Int) :
    ∀ (L : List (List Char)) (parts : List Int),
      L.mapM g = some parts →
      (L.filterMap g).length = L.length ∧ parts.length = L.length := by
  intro L
  induction L with
  | nil =>
    intro parts h
    simp only [List.mapM_nil, Option.pure_def, Option.some.injEq] at h
    subst h
    exact ⟨rfl, rfl⟩
  | cons x xs ih =>
    intro parts h
    simp only [List.mapM_cons, Option.pure_def, Option.bind_eq_bind,
      Option.bind_eq_some] at h
    obtain ⟨y, hy, ys, hys, hcons⟩ := h
    obtain ⟨h1, h2⟩ := ih ys hys
    injection hcons with hcons
    subst hcons
    constructor
    · simp [List.filterMap_cons, hy, h1]
    · simp [h2]

/-- Claim C7: `parse_bounds` maps the structured record to its tuple
and parses a well-formed comma-separated string to the same tuple
(including PEP 515 underscore grouping, as in Python `int()`); for
every behavior of the field parser `int(x.strip())` — hence in
particular for the Python builtin, whose Unicode digit set the
executable model does not enumerate — a string with fewer than four
accepted fields fails with a `ParseError`, and `parse_bounds` is that
scheme instantiated at the executable parser, so the failure clause
holds of it as well. -/
theorem parse_bounds_spec :
    (∀ l t r b : Int, parse_bounds (.ofDict l t r b) = .ok (l, t, r, b))
    ∧ parse_bounds (.ofString "10, 10, 50, 30") = .ok (10, 10, 50, 30)
    ∧ parse_bounds (.ofString "1_0, 2, 3, 4") = .ok (10, 2, 3, 4)
    ∧ (∀ (intF : List Char → Option Int) (s : String),
        numericFieldCount_with intF s < 4 →
        ∃ e, parse_bounds_str_with intF s = .error e)
    ∧ (∀ s : String, parse_bounds (.ofString s) = parse_bounds_str_with parseField s)
    ∧ (∀ s : String, numericFieldCount s < 4 →
        ∃ e, parse_bounds (.ofString s) = .error e) := by
  have key : ∀ (intF : List Char → Option Int) (s : String),
      numericFieldCount_with intF s < 4 →
      ∃ e, parse_bounds_str_with intF s = .error e := by
    intro intF s hcount
    rw [parse_bounds_str_with]
    cases hm : (splitComma s.data).mapM intF with
    | none => exact ⟨.valueError, rfl⟩
    | some parts =>
      obtain ⟨h1, h2⟩ := mapM_filterMap_lengths intF _ parts hm
      rw [numericFieldCount_with, h1] at hcount
      match parts, h2 with
      | [], _ => exact ⟨.indexError, rfl⟩
      | [a], _ => exact ⟨.indexError, rfl⟩
      | [a, b], _ => exact ⟨.indexError, rfl⟩
      | [a, b, c], _ => exact ⟨.indexError, rfl⟩
      | a :: b :: c :: d :: rest, hlen =>
        exfalso
        simp only [List.length_cons] at hlen
        omega
  exact ⟨fun l t r b => rfl, by decide, by decide, key, fun s => rfl,
    fun s hcount => key parseField s hcount⟩

/-- Witness for C7: a two-field string is rejected, both through the
parser-generic clause and through `parse_bounds` itself. -/
theorem parse_bounds_spec_witness :
    (numericFieldCount_with parseField "1, 2" < 4
     ∧ ∃ e, parse_bounds_str_with parseField "1, 2" = .error e)
    ∧ (numericFieldCount "1, 2" < 4 ∧ ∃ e, parse_bounds (.ofString "1, 2") = .error e) :=
  ⟨⟨by decide, parse_bounds_spec.2.2.2.1 parseField "1, 2" (by decide)⟩,
    ⟨by decide, parse_bounds_spec.2.2.2.2.2 "1, 2" (by decide)⟩⟩

theorem pyOr_eq_some_true_iff (a b : Option Bool) :
    pyOr a b = some true ↔ (a = some true ∨ b = some true) := by
  unfold pyOr
  by_cases h : a = some true <;> simp [h]

theorem pyOr_of_not_true (a b : Option Bool) (h : a ≠ some true) :
    pyOr a b = b := by
  unfold pyOr
  simp [h]

theorem format_element_json_state_fields (n : NodeData) (j : ElementJson)
    (h : format_element_json n = .ok j) :
    j.checked = (match n.isChecked with | some v => some v | none => n.checked)
    ∧ j.enabled = (match n.isEnabled with | some v => some v | none => n.enabled)
    ∧ j.selected = pyOr n.isSelected n.selected
    ∧ j.focused = pyOr n.isFocused n.focused
    ∧ j.clickable = pyOr n.isClickable n.clickable := by
  rw [format_element_json] at h
  by_cases hb : (get_bounds n != "") = true
  · simp only [hb, if_true, Bind.bind, Except.bind] at h
    cases hc : center_of (get_bounds n) with
    | error e => rw [hc] at h; simp [Pure.pure, Except.pure] at h
    | ok c =>
      rw [hc] at h
      simp only [Pure.pure, Except.pure] at h
      injection h with h
      subst h
      exact ⟨rfl, rfl, rfl, rfl, rfl⟩
  · simp only [hb, if_false, Bind.bind, Except.bind, Pure.pure, Except.pure,
      Bool.false_eq_true] at h
    injection h with h
    subst h
    exact ⟨rfl, rfl, rfl, rfl, rfl⟩

/-- Claim C8 counterexample: a node carrying `isSelected: false` — a
state present with value false — comes out of `format_element_json`
with a null `selected`, not false: the Python `or` drops a falsy first
operand. -/
theorem format_element_json_counterexample :
    selFalseData.isSelected = some false
    ∧ (format_element_json selFalseData).map ElementJson.selected = .ok none
    ∧ ((Except.ok (none : Option Bool) : Except ParseError (Option Bool)) ≠
        .ok (some false)) := by
  refine ⟨rfl, by decide, by decide⟩

/-- Claim C8 (amended): the record exposes checked and enabled as-is
(the isX key, when present, wins — whether true or false — and both
absent yields null); for selected, focused and clickable the record is
true exactly when either key is true, and when the isX key is not true
the plain key's value passes through — so isX=false with the plain key
absent yields null rather than false. -/
theorem format_element_json_state_semantics :
    ∀ (n : NodeData) (j : ElementJson), format_element_json n = .ok j →
      ((∀ v, n.isChecked = some v → j.checked = some v)
       ∧ (n.isChecked = none → j.checked = n.checked)
       ∧ (∀ v, n.isEnabled = some v → j.enabled = some v)
       ∧ (n.isEnabled = none → j.enabled = n.enabled)
       ∧ (j.selected = some true ↔ (n.isSelected = some true ∨ n.selected = some true))
       ∧ (n.isSelected ≠ some true → j.selected = n.selected)
       ∧ (j.focused = some true ↔ (n.isFocused = some true ∨ n.focused = some true))
       ∧ (n.isFocused ≠ some true → j.focused = n.focused)
       ∧ (j.clickable = some true ↔ (n.isClickable = some true ∨ n.clickable = some true))
       ∧ (n.isClickable ≠ some true → j.clickable = n.clickable)) := by
  intro n j h
  obtain ⟨hck, hen, hsel, hfoc, hcl⟩ := format_element_json_state_fields n j h
  refine ⟨?_, ?_, ?_, ?_, ?_, ?_, ?_, ?_, ?_, ?_⟩
  · intro v hv; rw [hck, hv]
  · intro hv; rw [hck, hv]
  · intro v hv; rw [hen, hv]
  · intro hv; rw [hen, hv]
  · rw [hsel]; exact pyOr_eq_some_true_iff _ _
  · intro hv; rw [hsel]; exact pyOr_of_not_true _ _ hv
  · rw [hfoc]; exact pyOr_eq_some_true_iff _ _
  · intro hv; rw [hfoc]; exact pyOr_of_not_true _ _ hv
  · rw [hcl]; exact pyOr_eq_some_true_iff _ _
  · intro hv; rw [hcl]; exact pyOr_of_not_true _ _ hv

/-- Witness for C8: the amended theorem applied to the isSelected=false
node, whose output selected field equals its (absent) plain selected
key. -/
theorem format_element_json_state_semantics_witness :
    format_element_json selFalseData =
      .ok ⟨none, "", "", "", none, "", none, none, none, none, none⟩
    ∧ (⟨none, "", "", "", none, "", none, none, none, none, none⟩ : ElementJson).selected =
        selFalseData.selected :=
  ⟨by decide,
    (format_element_json_state_semantics selFalseData
      ⟨none, "", "", "", none, "", none, none, none, none, none⟩
      (by decide)).2.2.2.2.2.1 (by decide)⟩

/-- Claim C9: in the droid-wait poll loop, an attempt that failed (adb
timed out, exited non-zero, or returned a malformed response) before
the deadline just continues the loop; a success outcome is only ever
reported with a concrete element found by `find_element` on some
successfully parsed attempt before the deadline; and once the elapsed
time reaches the overall timeout the loop reports the timeout failure,
whatever the current attempt would have produced. -/
theorem wait_main_cons (q : String) (e : Bool) (tmo elapsed : ℚ)
    (att : Attempt) (rest : List (ℚ × Attempt)) :
    wait_main q e tmo ((elapsed, att) :: rest) =
      (if elapsed ≥ tmo then .timeoutExit
       else
         match att with
         | .adbMissing => .adbMissingExit
         | .failed => wait_main q e tmo rest
         | .tree roots =>
           match roots with
           | .nil => wait_main q e tmo rest
           | _ =>
             match find_element roots q e with
             | some m => .found m
             | none => wait_main q e tmo rest) := rfl

theorem wait_poll_spec :
    (∀ (q : String) (e : Bool) (tmo elapsed : ℚ) (rest : List (ℚ × Attempt)),
       elapsed < tmo →
       wait_main q e tmo ((elapsed, .failed) :: rest) = wait_main q e tmo rest)
    ∧ (∀ (q : String) (e : Bool) (tmo : ℚ) (trace : List (ℚ × Attempt)) (n : Node),
       wait_main q e tmo trace = .found n →
       ∃ elapsed roots, (elapsed, Attempt.tree roots) ∈ trace ∧ elapsed < tmo
         ∧ find_element roots q e = some n)
    ∧ (∀ (q : String) (e : Bool) (tmo elapsed : ℚ) (att : Attempt)
         (rest : List (ℚ × Attempt)),
       tmo ≤ elapsed →
       wait_main q e tmo ((elapsed, att) :: rest) = .timeoutExit) := by
  refine ⟨?_, ?_, ?_⟩
  · intro q e tmo elapsed rest h
    rw [wait_main_cons, if_neg (not_le.mpr h)]
  · intro q e tmo trace n
    induction trace with
    | nil => intro h; exact absurd h (by simp [wait_main])
    | cons p rest ih =>
      rcases p with ⟨elapsed, att⟩
      intro h
      rw [wait_main_cons] at h
      by_cases hto : elapsed ≥ tmo
      · rw [if_pos hto] at h
        exact absurd h (by simp)
      · rw [if_neg hto] at h
        cases att with
        | adbMissing =>
          change WaitOutcome.adbMissingExit = WaitOutcome.found n at h
          exact absurd h (by simp)
        | failed =>
          change wait_main q e tmo rest = WaitOutcome.found n at h
          obtain ⟨e', r', hmem, hlt, hfind⟩ := ih h
          exact ⟨e', r', List.mem_cons_of_mem _ hmem, hlt, hfind⟩
        | tree roots =>
          cases roots with
          | nil =>
            change wait_main q e tmo rest = WaitOutcome.found n at h
            obtain ⟨e', r', hmem, hlt, hfind⟩ := ih h
            exact ⟨e', r', List.mem_cons_of_mem _ hmem, hlt, hfind⟩
          | cons hd tl =>
            change (match find_element (Forest.cons hd tl) q e with
                    | some m => WaitOutcome.found m
                    | none => wait_main q e tmo rest) = WaitOutcome.found n at h
            cases hf : find_element (.cons hd tl) q e with
            | some m =>
              rw [hf] at h
              injection h with h
              subst h
              exact ⟨elapsed, .cons hd tl, List.mem_cons_self _ _,
                not_le.mp hto, hf⟩
            | none =>
              rw [hf] at h
              obtain ⟨e', r', hmem, hlt, hfind⟩ := ih h
              exact ⟨e', r', List.mem_cons_of_mem _ hmem, hlt, hfind⟩
  · intro q e tmo elapsed att rest h
    rw [wait_main_cons, if_pos h]

/-- Witness for C9: one failed attempt at t=0 is skipped; a parsed tree
containing "OK" at t=0 yields a found outcome backed by `find_element`;
an attempt arriving at t=12 with a 10-second timeout reports the
timeout exit. -/
theorem wait_poll_spec_witness :
    ((0 : ℚ) < 10
     ∧ wait_main "OK" false 10 [((0 : ℚ), .failed), (1, .tree okForest)] =
         wait_main "OK" false 10 [((1 : ℚ), .tree okForest)])
    ∧ (∃ elapsed roots,
        (elapsed, Attempt.tree roots) ∈ [((0 : ℚ), Attempt.tree okForest)]
        ∧ elapsed < 10 ∧ find_element roots "OK" false = some okNode)
    ∧ ((10 : ℚ) ≤ 12
       ∧ wait_main "OK" false 10 [((12 : ℚ), .failed)] = .timeoutExit) :=
  ⟨⟨by norm_num, wait_poll_spec.1 "OK" false 10 0 [(1, .tree okForest)] (by norm_num)⟩,
    wait_poll_spec.2.1 "OK" false 10 [((0 : ℚ), .tree okForest)] okNode
      (by
        have h10 : ¬((0 : ℚ) ≥ 10) := by norm_num
        rw [wait_main_cons, if_neg h10]
        rfl),
    ⟨by norm_num, wait_poll_spec.2.2 "OK" false 10 12 .failed [] (by norm_num)⟩⟩
